import Mathlib

/-!
Verification of the financial core of the household-budget application
(gestor-de-gastos-domesticos).  The TypeScript source is shallowly embedded:
JavaScript numbers are modelled as exact rationals (ℚ), JS array access
`a[i] || 0` becomes `List.getD i 0`, imperative accumulation loops become
`List.foldl` / structural recursion, and `null`-able chart fields become
`Option ℚ`.  Square roots (`Math.sqrt`) are irrational, so the two places
that consume them (`stdDev`, the error-band margins) are parameterized by
the square-root value; no verified property depends on those fields.
-/

namespace Gestor

/-- JS `rates[i] || 0`: out-of-range (undefined) or falsy (0) access yields 0.
Embeds the rate lookup used by every loop in `InflationService`. -/
def rateAt (rates : List ℚ) (i : ℕ) : ℚ := rates.getD i 0

/-- Embeds `calculateRealValue` (InflationService): discounts a nominal amount
by cumulative inflation; early-returns the nominal when the percentage is 0. -/
def calculateRealValue (nominalAmount accumulatedInflationPercentage : ℚ) : ℚ :=
  if accumulatedInflationPercentage = 0 then nominalAmount
  else nominalAmount / (1 + accumulatedInflationPercentage / 100)

/-- Embeds `calculatePresentValue` (InflationService): compounds a past amount
forward through `for (let i = fromMonthIdx + 1; i <= currentMonthIdx; i++)
multiplier *= (1 + rate/100)`.  `List.range' (f+1) (c-f)` is exactly the index
sequence `f+1, …, c` of that loop (empty when the guard returns early). -/
def calculatePresentValue (pastAmount : ℚ) (fromMonthIdx currentMonthIdx : ℕ)
    (rates : List ℚ) : ℚ :=
  if currentMonthIdx ≤ fromMonthIdx then pastAmount
  else
    pastAmount *
      (List.range' (fromMonthIdx + 1) (currentMonthIdx - fromMonthIdx)).foldl
        (fun m i => m * (1 + rateAt rates i / 100)) 1

/-- Embeds `getCumulativeInflation` (InflationService): multiplier loop
`for (let i = startMonthIdx; i <= targetMonthIdx; i++)`, then
`(multiplier - 1) * 100`.  `List.range' s (t+1-s)` is the index sequence
`s, …, t` (empty when `t < s`, matching the loop body never running). -/
def getCumulativeInflation (monthlyRates : List ℚ) (startMonthIdx targetMonthIdx : ℕ) : ℚ :=
  ((List.range' startMonthIdx (targetMonthIdx + 1 - startMonthIdx)).foldl
      (fun m i => m * (1 + rateAt monthlyRates i / 100)) 1 - 1) * 100

/- ### Fold-to-product bridging lemmas -/

lemma foldl_mul_eq_prod (f : ℕ → ℚ) :
    ∀ (l : List ℕ) (a : ℚ), l.foldl (fun m i => m * f i) a = a * (l.map f).prod := by
  intro l
  induction l with
  | nil => intro a; simp
  | cons x xs ih =>
      intro a
      simp only [List.foldl_cons, List.map_cons, List.prod_cons, ih]
      ring

lemma map_range'_prod (f : ℕ → ℚ) :
    ∀ (n lo : ℕ), ((List.range' lo n).map f).prod = ∏ i ∈ Finset.Ico lo (lo + n), f i := by
  intro n
  induction n with
  | zero => intro lo; simp
  | succ n ih =>
      intro lo
      rw [List.range'_succ, List.map_cons, List.prod_cons, ih (lo + 1),
        Finset.prod_eq_prod_Ico_succ_bot (by omega : lo < lo + (n + 1)) f]
      have h : lo + 1 + n = lo + (n + 1) := by omega
      rw [h]

lemma foldl_mul_Icc (f : ℕ → ℚ) (lo n : ℕ) :
    (List.range' lo n).foldl (fun m i => m * f i) 1 =
      ∏ i ∈ Finset.Ico lo (lo + n), f i := by
  rw [foldl_mul_eq_prod, map_range'_prod, one_mul]

/-- C4: `calculatePresentValue` compounds `pastAmount` by
`∏ (1 + rates[i]/100)` for `i ∈ [fromMonthIdx+1, currentMonthIdx]`,
is the identity when `fromMonthIdx ≥ currentMonthIdx`, and
`calculatePresentValue 100 0 2 [0, 2, 1] = 100 · 1.02 · 1.01 = 103.02`. -/
theorem calculatePresentValue_spec (p : ℚ) (f c : ℕ) (r : List ℚ) :
    calculatePresentValue p f c r = p * ∏ i ∈ Finset.Icc (f + 1) c, (1 + rateAt r i / 100)
    ∧ (c ≤ f → calculatePresentValue p f c r = p)
    ∧ calculatePresentValue 100 0 2 [0, 2, 1] = 103.02 := by
  refine ⟨?_, ?_, ?_⟩
  · by_cases h : c ≤ f
    · have hempty : Finset.Icc (f + 1) c = ∅ := by
        apply Finset.Icc_eq_empty
        omega
      rw [hempty, Finset.prod_empty, mul_one]
      simp [calculatePresentValue, h]
    · push_neg at h
      rw [calculatePresentValue, if_neg (by omega), foldl_mul_Icc]
      have hn : f + 1 + (c - f) = c + 1 := by omega
      rw [hn, ← Nat.Ico_succ_right]
  · intro h
    simp [calculatePresentValue, h]
  · norm_num [calculatePresentValue, rateAt, List.range']

/-- Witness for `calculatePresentValue_spec` at `p = 7, f = 3, c = 2`,
discharging the `c ≤ f` hypothesis of the identity clause. -/
theorem calculatePresentValue_spec_witness :
    calculatePresentValue 7 3 2 [5, 5, 5] = 7 :=
  (calculatePresentValue_spec 7 3 2 [5, 5, 5]).2.1 (by decide)

/-- C5: for `startIdx ≤ targetIdx`, `getCumulativeInflation` returns
`(P - 1) * 100` with `P = ∏ (1 + rates[i]/100)` over `[startIdx, targetIdx]`;
on a flat 1% series it gives `(1.01³ − 1) · 100` for indices 0..2. -/
theorem getCumulativeInflation_spec :
    (∀ (r : List ℚ) (s t : ℕ), s ≤ t →
        getCumulativeInflation r s t = ((∏ i ∈ Finset.Icc s t, (1 + rateAt r i / 100)) - 1) * 100)
    ∧ getCumulativeInflation (List.replicate 12 1) 0 2 = ((1.01 : ℚ) ^ 3 - 1) * 100 := by
  constructor
  · intro r s t h
    rw [getCumulativeInflation, foldl_mul_Icc]
    have hn : s + (t + 1 - s) = t + 1 := by omega
    rw [hn, ← Nat.Ico_succ_right]
  · norm_num [getCumulativeInflation, rateAt, List.range', List.replicate]

/-- Witness for `getCumulativeInflation_spec`: the closed form evaluated at
rates `[0, 2, 1]`, `s = 1`, `t = 2`. -/
theorem getCumulativeInflation_spec_witness :
    getCumulativeInflation [0, 2, 1] 1 2 =
      ((∏ i ∈ Finset.Icc 1 2, (1 + rateAt [0, 2, 1] i / 100)) - 1) * 100 :=
  getCumulativeInflation_spec.1 [0, 2, 1] 1 2 (by decide)

/-- C10: with a reversed range (`targetIdx < startIdx`) the accumulation loop
body never runs, the multiplier stays 1, and `getCumulativeInflation`
returns exactly 0. -/
theorem getCumulativeInflation_reversed (r : List ℚ) (s t : ℕ) (h : t < s) :
    getCumulativeInflation r s t = 0 := by
  have hn : t + 1 - s = 0 := by omega
  simp [getCumulativeInflation, hn, List.range']

/-- Witness for `getCumulativeInflation_reversed` at `s = 5, t = 2`. -/
theorem getCumulativeInflation_reversed_witness :
    getCumulativeInflation [1, 2, 3] 5 2 = 0 :=
  getCumulativeInflation_reversed [1, 2, 3] 5 2 (by decide)

/-- C8: re-inflating `calculateRealValue nominal c` by the same factor
`1 + c/100` recovers `nominal` whenever that factor is nonzero, and
`calculateRealValue` is the identity at `c = 0`. -/
theorem calculateRealValue_roundtrip (n c : ℚ) :
    (1 + c / 100 ≠ 0 → calculateRealValue n c * (1 + c / 100) = n)
    ∧ calculateRealValue n 0 = n := by
  constructor
  · intro h
    by_cases hc : c = 0
    · simp [calculateRealValue, hc]
    · rw [calculateRealValue, if_neg hc, div_mul_cancel₀ n h]
  · simp [calculateRealValue]

/-- Witness for `calculateRealValue_roundtrip` at `n = 300, c = 50`. -/
theorem calculateRealValue_roundtrip_witness :
    calculateRealValue 300 50 * (1 + 50 / 100) = 300 :=
  (calculateRealValue_roundtrip 300 50).1 (by norm_num)

/- ### Dashboard data model (types.ts / Dashboard.tsx props) -/

/-- Ledger expense row (`ExpenseItem`, types.ts).  The dashboard reads only
the 12-slot `amounts` series; labels ride along.  The per-month transaction
map is not read by the dashboard and is omitted here. -/
structure ExpenseItem where
  category : String
  name : String
  amounts : List ℚ

/-- Ledger income row (`IncomeItem`, types.ts). -/
structure IncomeItem where
  category : String
  name : String
  amounts : List ℚ

/-- JS `item.amounts[index] || 0`. -/
def amountAt (amounts : List ℚ) (i : ℕ) : ℚ := amounts.getD i 0

/-- The props and date-derived values the `Dashboard` component closes over:
`data`, `incomeData`, `yearConfig` (start month + year), `baseBalance`, the
wall-clock year/month from `new Date()`, and the loaded inflation rates. -/
structure DashboardEnv where
  data : List ExpenseItem
  incomeData : List IncomeItem
  startMonthIndex : ℕ
  year : ℤ
  currentYear : ℤ
  currentMonthIndex : ℕ
  baseBalance : ℚ
  inflationRates : List ℚ

/-- `const isCurrentYear = year === currentYear`. -/
def isCurrentYear (e : DashboardEnv) : Bool := decide (e.year = e.currentYear)

/-- `monthlyData[i].expense`: reduce over all expense rows at month `i`. -/
def totalExpense (e : DashboardEnv) (i : ℕ) : ℚ :=
  e.data.foldl (fun acc item => acc + amountAt item.amounts i) 0

/-- `monthlyData[i].income`: reduce over all income rows at month `i`. -/
def totalIncome (e : DashboardEnv) (i : ℕ) : ℚ :=
  e.incomeData.foldl (fun acc item => acc + amountAt item.amounts i) 0

/-- `monthlyData[i].netSavings = totalIncome - totalExpense`. -/
def netSavings (e : DashboardEnv) (i : ℕ) : ℚ := totalIncome e i - totalExpense e i

/-- `MAX_MONTH_FOR_STATS = isCurrentYear ? Math.max(-1, currentMonthIndex - 1) : 11`. -/
def MAX_MONTH_FOR_STATS (e : DashboardEnv) : ℤ :=
  if isCurrentYear e then max (-1) ((e.currentMonthIndex : ℤ) - 1) else 11

/-- `isReliableForStats(idx) = idx >= RELIABLE_START_INDEX && idx <= MAX_MONTH_FOR_STATS`. -/
def isReliableForStats (e : DashboardEnv) (i : ℕ) : Bool :=
  decide (e.startMonthIndex ≤ i) && decide ((i : ℤ) ≤ MAX_MONTH_FOR_STATS e)

/-- The `for (let i = 0; i < 12; i++)` accumulation inside the averages memo,
restricted to the savings sum and the counter that `avgSavings` reads. -/
def statsAcc (e : DashboardEnv) : ℚ × ℕ :=
  (List.range 12).foldl
    (fun acc i => if isReliableForStats e i then (acc.1 + netSavings e i, acc.2 + 1) else acc)
    (0, 0)

/-- `validMonthsCount` from the averages memo. -/
def validMonthsCount (e : DashboardEnv) : ℕ := (statsAcc e).2

/-- `avgSavings = count > 0 ? sumSavings / count : 0`. -/
def avgSavings (e : DashboardEnv) : ℚ :=
  if 0 < validMonthsCount e then (statsAcc e).1 / validMonthsCount e else 0

/-- `monthlyData.filter(m => isReliableForStats(m.index)).map(m => m.netSavings)`
from the projection memo. -/
def reliableSavingsValues (e : DashboardEnv) : List ℚ :=
  ((List.range 12).filter (isReliableForStats e)).map (netSavings e)

/-- The variance computed in the projection memo
(`reduce((acc, val) => acc + Math.pow(val - avgSavings, 2), 0) / length` when
the filtered list is nonempty, else 0).  The source then takes
`stdDev = Math.sqrt(variance)`; the square root is applied at the theorem
level (`Real.sqrt`) because it is irrational. -/
def projVariance (e : DashboardEnv) : ℚ :=
  if 0 < (reliableSavingsValues e).length then
    (reliableSavingsValues e).foldl (fun acc val => acc + (val - avgSavings e) ^ 2) 0
      / (reliableSavingsValues e).length
  else 0

/- ### Claim-side description of the statistics window -/

/-- Months the specification says enter the averages: index ≥ `startMonthIndex`
and strictly before the current month index; for a non-current year all twelve
months up to index 11 qualify. -/
def qualifyingMonths (e : DashboardEnv) : List ℕ :=
  (List.range 12).filter
    (fun i => decide (e.startMonthIndex ≤ i) &&
      (if isCurrentYear e then decide (i < e.currentMonthIndex) else true))

lemma foldl_add_eq_sum (g : ℚ → ℚ) :
    ∀ (l : List ℚ) (a : ℚ), l.foldl (fun acc v => acc + g v) a = a + (l.map g).sum := by
  intro l
  induction l with
  | nil => intro a; simp
  | cons x xs ih =>
      intro a
      simp only [List.foldl_cons, List.map_cons, List.sum_cons, ih]
      ring

lemma reliable_filter_eq (e : DashboardEnv) :
    (List.range 12).filter (isReliableForStats e) = qualifyingMonths e := by
  apply List.filter_congr
  intro i hi
  have h12 : i < 12 := List.mem_range.mp hi
  unfold isReliableForStats MAX_MONTH_FOR_STATS
  by_cases hcy : isCurrentYear e
  · simp only [hcy, if_true]
    by_cases hs : e.startMonthIndex ≤ i
    · simp only [decide_eq_true hs, Bool.true_and]
      congr 1
      refine propext ?_
      omega
    · simp [hs]
  · simp only [Bool.not_eq_true] at hcy
    simp only [hcy, Bool.false_eq_true, if_false]
    by_cases hs : e.startMonthIndex ≤ i
    · simp only [decide_eq_true hs, Bool.true_and, Bool.and_true]
      have : (i : ℤ) ≤ 11 := by omega
      simp [this]
    · simp [hs]

lemma statsAcc_closed (e : DashboardEnv) :
    statsAcc e = (((qualifyingMonths e).map (netSavings e)).sum, (qualifyingMonths e).length) := by
  rw [← reliable_filter_eq]
  unfold statsAcc
  have key : ∀ (l : List ℕ) (s : ℚ) (c : ℕ),
      l.foldl (fun acc i => if isReliableForStats e i then (acc.1 + netSavings e i, acc.2 + 1) else acc) (s, c)
        = (s + ((l.filter (isReliableForStats e)).map (netSavings e)).sum,
           c + (l.filter (isReliableForStats e)).length) := by
    intro l
    induction l with
    | nil => intro s c; simp
    | cons x xs ih =>
        intro s c
        by_cases hx : isReliableForStats e x
        · simp only [List.foldl_cons, hx, if_true, List.filter_cons_of_pos hx,
            List.map_cons, List.sum_cons, List.length_cons, ih, Prod.mk.injEq]
          constructor
          · ring
          · omega
        · simp only [List.foldl_cons, hx, Bool.false_eq_true, if_false,
            List.filter_cons_of_neg (by simpa using hx), ih]
  rw [key]
  simp

/-- C2: `avgSavings` is the arithmetic mean of net savings over exactly the
months ≥ `startMonthIndex` and strictly before the current month (all twelve
months for a non-current year); the projection variance is the population
variance (divide by the count) of the same months; with zero qualifying
months both `avgSavings` and `stdDev = √variance` are 0 and no division by
zero is attempted (the guarded branches return 0). -/
theorem avgSavings_stdDev_spec (e : DashboardEnv) :
    (avgSavings e = if (qualifyingMonths e).length = 0 then 0
      else ((qualifyingMonths e).map (netSavings e)).sum / ((qualifyingMonths e).length : ℚ))
    ∧ (projVariance e = if (qualifyingMonths e).length = 0 then 0
      else (((qualifyingMonths e).map (netSavings e)).map
          (fun v => (v - avgSavings e) ^ 2)).sum / ((qualifyingMonths e).length : ℚ))
    ∧ (qualifyingMonths e = [] → avgSavings e = 0 ∧ Real.sqrt (projVariance e) = 0) := by
  have hq : reliableSavingsValues e = (qualifyingMonths e).map (netSavings e) := by
    rw [reliableSavingsValues, reliable_filter_eq]
  have havg : avgSavings e = if (qualifyingMonths e).length = 0 then 0
      else ((qualifyingMonths e).map (netSavings e)).sum / ((qualifyingMonths e).length : ℚ) := by
    rw [avgSavings, validMonthsCount, statsAcc_closed]
    by_cases h0 : (qualifyingMonths e).length = 0
    · simp [h0]
    · simp only [h0, if_false]
      rw [if_pos (by omega)]
  refine ⟨havg, ?_, ?_⟩
  · rw [projVariance, hq]
    by_cases h0 : (qualifyingMonths e).length = 0
    · simp [h0]
    · simp only [List.length_map, h0, if_false]
      rw [if_pos (by omega), foldl_add_eq_sum, zero_add]
  · intro hnil
    have h0 : (qualifyingMonths e).length = 0 := by rw [hnil]; rfl
    constructor
    · rw [havg, if_pos h0]
    · have : projVariance e = 0 := by
        rw [projVariance, hq, hnil]
        simp
      rw [this]
      simp

/-- Environment with `startMonthIndex = 12`: no month qualifies for statistics. -/
def envNoReliable : DashboardEnv :=
  { data := [], incomeData := [], startMonthIndex := 12, year := 2025,
    currentYear := 2025, currentMonthIndex := 9, baseBalance := 0, inflationRates := [] }

/-- Witness for `avgSavings_stdDev_spec`: with `startMonthIndex = 12` the
average and the standard deviation are both 0. -/
theorem avgSavings_stdDev_spec_witness :
    avgSavings envNoReliable = 0 ∧ Real.sqrt (projVariance envNoReliable) = 0 :=
  (avgSavings_stdDev_spec envNoReliable).2.2 (by decide)

/- ### Projection engine (projectionData memo, Dashboard.tsx) -/

/-- One entry pushed onto `result` by the projection loop.  The display label
`name` is omitted; JS `null` becomes `none`. -/
structure ProjPoint where
  actual : Option ℚ
  realActual : Option ℚ
  projected : Option ℚ
  realProjected : Option ℚ
  range : Option (ℚ × ℚ)
  isUnrecorded : Bool
  inflation : ℚ
deriving DecidableEq

/-- `isPast` for month `i`: `isCurrentYear ? i < currentMonthIndex : true`. -/
def isPastIdx (e : DashboardEnv) (i : ℕ) : Bool :=
  if isCurrentYear e then decide (i < e.currentMonthIndex) else true

/-- The body of the `for (let i = 0; i < 12; i++)` projection loop: takes the
running pair `(runningActual, runningProjected)` and the month index, returns
the updated pair and the pushed chart point.  `stdDev` is the source's
`Math.sqrt(variance)` and `sqrtQ` models `Math.sqrt` on the months-into-future
margin; both are irrational in general, feed only the `range` band, and are
passed as parameters. -/
def projStep (e : DashboardEnv) (stdDev : ℚ) (sqrtQ : ℕ → ℚ) (st : ℚ × ℚ) (i : ℕ) :
    (ℚ × ℚ) × ProjPoint :=
  let cumulativeInflation := getCumulativeInflation e.inflationRates e.startMonthIndex i
  let ns := netSavings e i
  if isPastIdx e i then
    let runningActual := st.1 + ns
    ((runningActual, runningActual),
     { actual := some runningActual,
       realActual := some (calculateRealValue runningActual cumulativeInflation),
       projected := none,
       realProjected := none,
       range := none,
       isUnrecorded := decide (i < e.startMonthIndex),
       inflation := cumulativeInflation })
  else if i = e.currentMonthIndex then
    let currentActualBalance := st.1 + ns
    let runningProjected := st.2 + avgSavings e
    ((currentActualBalance, runningProjected),
     { actual := some currentActualBalance,
       realActual := some (calculateRealValue currentActualBalance cumulativeInflation),
       projected := some runningProjected,
       realProjected := some (calculateRealValue runningProjected cumulativeInflation),
       range := some (runningProjected - stdDev * 0.5, runningProjected + stdDev * 0.5),
       isUnrecorded := false,
       inflation := cumulativeInflation })
  else
    let runningProjected := st.2 + avgSavings e
    let margin := stdDev * sqrtQ (i - e.currentMonthIndex) * 1.5
    ((st.1, runningProjected),
     { actual := none,
       realActual := none,
       projected := some runningProjected,
       realProjected := some (calculateRealValue runningProjected cumulativeInflation),
       range := some (runningProjected - margin, runningProjected + margin),
       isUnrecorded := false,
       inflation := cumulativeInflation })

/-- The projection loop over a list of month indices, threading the
`(runningActual, runningProjected)` pair. -/
def projLoop (e : DashboardEnv) (stdDev : ℚ) (sqrtQ : ℕ → ℚ) :
    ℚ × ℚ → List ℕ → List ProjPoint
  | _, [] => []
  | st, i :: rest =>
      (projStep e stdDev sqrtQ st i).2 ::
        projLoop e stdDev sqrtQ (projStep e stdDev sqrtQ st i).1 rest

/-- `projectionData`: both accumulators seeded at `baseBalance`, months 0..11. -/
def projectionData (e : DashboardEnv) (stdDev : ℚ) (sqrtQ : ℕ → ℚ) : List ProjPoint :=
  projLoop e stdDev sqrtQ (e.baseBalance, e.baseBalance) (List.range 12)

/-- Balance accumulated over months `0, …, i-1`, seeded at the opening balance. -/
def accumBalance (e : DashboardEnv) (i : ℕ) : ℚ :=
  e.baseBalance + ∑ j ∈ Finset.range i, netSavings e j

lemma accumBalance_succ (e : DashboardEnv) (i : ℕ) :
    accumBalance e (i + 1) = accumBalance e i + netSavings e i := by
  rw [accumBalance, accumBalance, Finset.sum_range_succ]
  ring

lemma projStep_past (e : DashboardEnv) (stdDev : ℚ) (sqrtQ : ℕ → ℚ) (st : ℚ × ℚ) (i : ℕ)
    (hp : isPastIdx e i = true) :
    projStep e stdDev sqrtQ st i =
      ((st.1 + netSavings e i, st.1 + netSavings e i),
       { actual := some (st.1 + netSavings e i),
         realActual := some (calculateRealValue (st.1 + netSavings e i)
           (getCumulativeInflation e.inflationRates e.startMonthIndex i)),
         projected := none,
         realProjected := none,
         range := none,
         isUnrecorded := decide (i < e.startMonthIndex),
         inflation := getCumulativeInflation e.inflationRates e.startMonthIndex i }) := by
  simp [projStep, hp]

lemma projLoop_cons (e : DashboardEnv) (stdDev : ℚ) (sqrtQ : ℕ → ℚ) (st : ℚ × ℚ)
    (i : ℕ) (rest : List ℕ) :
    projLoop e stdDev sqrtQ st (i :: rest) =
      (projStep e stdDev sqrtQ st i).2 ::
        projLoop e stdDev sqrtQ (projStep e stdDev sqrtQ st i).1 rest := rfl

lemma projLoop_past_get (e : DashboardEnv) (stdDev : ℚ) (sqrtQ : ℕ → ℚ) :
    ∀ (k j i : ℕ), j < k → (∀ m, i ≤ m → m < i + j → isPastIdx e m = true) →
      (projLoop e stdDev sqrtQ (accumBalance e i, accumBalance e i) (List.range' i k))[j]? =
        some ((projStep e stdDev sqrtQ (accumBalance e (i + j), accumBalance e (i + j)) (i + j)).2) := by
  intro k
  induction k with
  | zero => intro j i hj _; omega
  | succ k ih =>
      intro j i hj hpast
      rw [List.range'_succ]
      cases j with
      | zero =>
          rw [projLoop_cons, List.getElem?_cons_zero]
          simp
      | succ j' =>
          have hp : isPastIdx e i = true := hpast i (le_refl i) (by omega)
          rw [projLoop_cons]
          rw [List.getElem?_cons_succ]
          have hst : (projStep e stdDev sqrtQ (accumBalance e i, accumBalance e i) i).1
              = (accumBalance e (i + 1), accumBalance e (i + 1)) := by
            rw [projStep_past e stdDev sqrtQ _ i hp, accumBalance_succ]
          rw [hst]
          have := ih j' (i + 1) (by omega) (fun m h1 h2 => hpast m (by omega) (by omega))
          have harith : i + 1 + j' = i + (j' + 1) := by omega
          rw [harith] at this
          exact this

/-- C1: in the current calendar year, the chart point at the current month
index carries
`actual = accumulated balance + this month's partial net savings` and
`projected = accumulated balance + avgSavings`; whenever the partial net
savings differ from `avgSavings`, the two emitted values differ. -/
theorem projection_currentMonth_fork (e : DashboardEnv) (stdDev : ℚ) (sqrtQ : ℕ → ℚ)
    (hcy : isCurrentYear e = true) (hcm : e.currentMonthIndex < 12) :
    ∃ pt, (projectionData e stdDev sqrtQ)[e.currentMonthIndex]? = some pt
      ∧ pt.actual = some (accumBalance e e.currentMonthIndex + netSavings e e.currentMonthIndex)
      ∧ pt.projected = some (accumBalance e e.currentMonthIndex + avgSavings e)
      ∧ (netSavings e e.currentMonthIndex ≠ avgSavings e → pt.actual ≠ pt.projected) := by
  have hbase : (e.baseBalance, e.baseBalance) = (accumBalance e 0, accumBalance e 0) := by
    rw [accumBalance]
    simp
  have hget := projLoop_past_get e stdDev sqrtQ 12 e.currentMonthIndex 0 hcm
    (fun m h1 h2 => by
      unfold isPastIdx
      rw [hcy, if_pos rfl]
      exact decide_eq_true (by omega))
  rw [projectionData, List.range_eq_range', hbase]
  simp only [Nat.zero_add] at hget
  rw [hget]
  have hnotpast : isPastIdx e e.currentMonthIndex = false := by
    unfold isPastIdx
    rw [hcy, if_pos rfl]
    simp
  have hact : (projStep e stdDev sqrtQ
      (accumBalance e e.currentMonthIndex, accumBalance e e.currentMonthIndex)
      e.currentMonthIndex).2.actual
        = some (accumBalance e e.currentMonthIndex + netSavings e e.currentMonthIndex) := by
    simp [projStep, hnotpast]
  have hproj : (projStep e stdDev sqrtQ
      (accumBalance e e.currentMonthIndex, accumBalance e e.currentMonthIndex)
      e.currentMonthIndex).2.projected
        = some (accumBalance e e.currentMonthIndex + avgSavings e) := by
    simp [projStep, hnotpast]
  refine ⟨_, rfl, hact, hproj, ?_⟩
  intro hne hcontra
  rw [hact, hproj] at hcontra
  simp only [Option.some.injEq] at hcontra
  exact hne (by linarith)

/-- C3 amended: every past-month chart point (month before the current month
in the current year; every month of a non-current year) is emitted with
`projected = null` and `realProjected = null`, while `actual` carries the
accumulated balance — the projection accumulator tracks reality internally,
but the emitted `projected` field is null, not equal to `actual`. -/
theorem projection_past_points (e : DashboardEnv) (stdDev : ℚ) (sqrtQ : ℕ → ℚ)
    (i : ℕ) (h12 : i < 12) (hpast : isCurrentYear e = true → i < e.currentMonthIndex) :
    ∃ pt, (projectionData e stdDev sqrtQ)[i]? = some pt
      ∧ pt.projected = none
      ∧ pt.realProjected = none
      ∧ pt.actual = some (accumBalance e (i + 1)) := by
  have hbase : (e.baseBalance, e.baseBalance) = (accumBalance e 0, accumBalance e 0) := by
    rw [accumBalance]
    simp
  have hpm : ∀ m, 0 ≤ m → m < 0 + i → isPastIdx e m = true := by
    intro m _ h2
    unfold isPastIdx
    by_cases hcy : isCurrentYear e
    · rw [hcy, if_pos rfl]
      exact decide_eq_true (by have := hpast hcy; omega)
    · simp only [Bool.not_eq_true] at hcy
      rw [hcy]
      simp
  have hget := projLoop_past_get e stdDev sqrtQ 12 i 0 h12 hpm
  rw [projectionData, List.range_eq_range', hbase]
  simp only [Nat.zero_add] at hget
  rw [hget]
  have hp : isPastIdx e i = true := by
    unfold isPastIdx
    by_cases hcy : isCurrentYear e
    · rw [hcy, if_pos rfl]
      exact decide_eq_true (hpast hcy)
    · simp only [Bool.not_eq_true] at hcy
      rw [hcy]
      simp
  rw [projStep_past e stdDev sqrtQ _ i hp, ← accumBalance_succ]
  exact ⟨_, rfl, rfl, rfl, rfl⟩

/-- A past-year environment: every month of the projection is a past month. -/
def envPastYear : DashboardEnv :=
  { data := [], incomeData := [], startMonthIndex := 0, year := 2024,
    currentYear := 2025, currentMonthIndex := 9, baseBalance := 5, inflationRates := [] }

/-- Counterexample to C3 as stated: in `envPastYear` month 0 is a past month,
yet the emitted point has `projected = null` while `actual = 5`, so
`projected === actual` fails. -/
theorem projection_past_cex :
    ((projectionData envPastYear 0 (fun _ => 0)).map ProjPoint.projected)[0]? ≠
      ((projectionData envPastYear 0 (fun _ => 0)).map ProjPoint.actual)[0]? := by
  decide

/-- Witness for `projection_past_points` at month 3 of `envPastYear`. -/
theorem projection_past_points_witness :
    ∃ pt, (projectionData envPastYear 0 (fun _ => 0))[3]? = some pt
      ∧ pt.projected = none
      ∧ pt.realProjected = none
      ∧ pt.actual = some (accumBalance envPastYear (3 + 1)) :=
  projection_past_points envPastYear 0 (fun _ => 0) 3 (by decide) (by decide)

/-- Current-year environment realizing the spec's Example 5: average savings
100 over nine completed months, a 500 one-off spike in the current month. -/
def envSpike : DashboardEnv :=
  { data := [],
    incomeData :=
      [⟨"Ingreso Fijo", "Sueldo", [100, 100, 100, 100, 100, 100, 100, 100, 100, 500, 0, 0]⟩],
    startMonthIndex := 0, year := 2025, currentYear := 2025,
    currentMonthIndex := 9, baseBalance := 1000, inflationRates := [] }

/-- Witness for `projection_currentMonth_fork` on `envSpike`. -/
theorem projection_currentMonth_fork_witness :
    ∃ pt, (projectionData envSpike 0 (fun _ => 0))[envSpike.currentMonthIndex]? = some pt
      ∧ pt.actual = some (accumBalance envSpike envSpike.currentMonthIndex
          + netSavings envSpike envSpike.currentMonthIndex)
      ∧ pt.projected = some (accumBalance envSpike envSpike.currentMonthIndex
          + avgSavings envSpike)
      ∧ (netSavings envSpike envSpike.currentMonthIndex ≠ avgSavings envSpike →
          pt.actual ≠ pt.projected) :=
  projection_currentMonth_fork envSpike 0 (fun _ => 0) (by decide) (by decide)

/- ### Future simulator (simulationResult memo, Dashboard.tsx) -/

/-- The record returned by the simulator memo. -/
structure SimResult where
  nominal : ℚ
  real : ℚ
  investedNominal : ℚ
  investmentProfit : ℚ
  monthsDiff : ℤ
deriving DecidableEq

/-- Embeds the `simulationResult` memo.  `monthlyRateFn` models the float
expression `Math.pow(1 + annualReturnRate/100, 1/12) - 1` (an irrational
12th root); it only feeds the investment branch. -/
def simulationResult (simYear simMonth currentYear currentMonthIndex : ℤ)
    (currentLiquidWealth avgSavingsRate : ℚ) (inflationRates : List ℚ)
    (enableInvestment : Bool) (annualReturnRate : ℚ) (monthlyRateFn : ℚ → ℚ) : SimResult :=
  if simYear < currentYear ∨ (simYear = currentYear ∧ simMonth ≤ currentMonthIndex) then
    { nominal := currentLiquidWealth, real := currentLiquidWealth,
      investedNominal := currentLiquidWealth, investmentProfit := 0, monthsDiff := 0 }
  else
    let monthsDiff : ℤ := (simYear - currentYear) * 12 + (simMonth - currentMonthIndex)
    let futureNominal := currentLiquidWealth + (monthsDiff : ℚ) * avgSavingsRate
    let avgMonthlyInflation : ℚ :=
      if 0 < inflationRates.length then
        inflationRates.foldl (· + ·) 0 / (inflationRates.length : ℚ)
      else 0.5
    let cumulativeInflationFactor := (1 + avgMonthlyInflation / 100) ^ monthsDiff
    let futureReal := futureNominal / cumulativeInflationFactor
    let monthlyRate := monthlyRateFn annualReturnRate
    let investedNominal :=
      if enableInvestment ∧ 0 < annualReturnRate then
        currentLiquidWealth * (1 + monthlyRate) ^ monthsDiff +
          (if 0 < monthlyRate then
            avgSavingsRate * (((1 + monthlyRate) ^ monthsDiff - 1) / monthlyRate)
          else avgSavingsRate * (monthsDiff : ℚ))
      else futureNominal
    let investmentProfit :=
      if enableInvestment ∧ 0 < annualReturnRate then investedNominal - futureNominal else 0
    { nominal := futureNominal, real := futureReal, investedNominal := investedNominal,
      investmentProfit := investmentProfit, monthsDiff := monthsDiff }

/-- C7: when the target (year, month) is ≤ the current (year, month) the
simulator returns the current liquid wealth unchanged with `monthsDiff = 0`
and zero investment profit; otherwise `monthsDiff = (Δyears)·12 + Δmonths`
and the nominal result is `wealth + monthsDiff · avgSavings`. -/
theorem simulationResult_spec (sy sm cy cm : ℤ) (w avg : ℚ) (rates : List ℚ)
    (inv : Bool) (rate : ℚ) (mrf : ℚ → ℚ) :
    ((sy < cy ∨ (sy = cy ∧ sm ≤ cm)) →
      simulationResult sy sm cy cm w avg rates inv rate mrf =
        { nominal := w, real := w, investedNominal := w,
          investmentProfit := 0, monthsDiff := 0 })
    ∧ (¬(sy < cy ∨ (sy = cy ∧ sm ≤ cm)) →
      (simulationResult sy sm cy cm w avg rates inv rate mrf).monthsDiff
          = (sy - cy) * 12 + (sm - cm)
        ∧ (simulationResult sy sm cy cm w avg rates inv rate mrf).nominal
          = w + (((sy - cy) * 12 + (sm - cm) : ℤ) : ℚ) * avg) := by
  constructor
  · intro h
    rw [simulationResult, if_pos h]
  · intro h
    rw [simulationResult, if_neg h]
    exact ⟨rfl, rfl⟩

/-- Witness for `simulationResult_spec`: a target in the past returns the
wealth unchanged, and a target exactly one year ahead (Example 4:
wealth 1000, average savings 100) gives `monthsDiff = 12` and nominal 2200. -/
theorem simulationResult_spec_witness :
    (simulationResult 2025 3 2025 9 1000 100 [] false 0 (fun _ => 0)).nominal = 1000
    ∧ (simulationResult 2026 9 2025 9 1000 100 [] false 0 (fun _ => 0)).monthsDiff = 12
    ∧ (simulationResult 2026 9 2025 9 1000 100 [] false 0 (fun _ => 0)).nominal = 2200 := by
  refine ⟨?_, ?_, ?_⟩
  · rw [(simulationResult_spec 2025 3 2025 9 1000 100 [] false 0 (fun _ => 0)).1
      (by norm_num)]
  · rw [((simulationResult_spec 2026 9 2025 9 1000 100 [] false 0 (fun _ => 0)).2
      (by norm_num)).1]
    norm_num
  · rw [((simulationResult_spec 2026 9 2025 9 1000 100 [] false 0 (fun _ => 0)).2
      (by norm_num)).2]
    norm_num

/- ### Catalog add (handleCatalogAdd, YearSettingsModal.tsx) -/

/-- Product record (types.ts); the optional `image` is not read here. -/
structure Product where
  id : String
  name : String
  defaultPrice : ℚ
  tagId : String
deriving DecidableEq

/-- The transaction passed to `addTransaction(desc, total, productId, price,
qty)` by the catalog-add handler.  The display description string (name with
quantity and price interpolated) is not modelled. -/
structure CatalogTransaction where
  amount : ℚ
  productId : String
  unitPrice : ℚ
  quantity : ℚ
deriving DecidableEq

/-- Observable effect of `handleCatalogAdd`: the transaction it adds and the
product update it passes to `onUpdateProduct`, if any. -/
structure CatalogAddEffect where
  transaction : Option CatalogTransaction
  productUpdate : Option Product
deriving DecidableEq

/-- Embeds `handleCatalogAdd` (YearSettingsModal.tsx).  Dates are modelled as
naturals ordered like the source's `YYYY-MM-DD` strings (`entryDate`,
`todayStr`); `priceOverride` is the parsed override field (`none` = empty);
`hasOnUpdateProduct` is the presence of the `onUpdateProduct` callback. -/
def handleCatalogAdd (selectedProduct : Option Product) (priceOverride : Option ℚ)
    (catalogQty : ℚ) (entryDate todayStr : ℕ) (hasOnUpdateProduct : Bool) : CatalogAddEffect :=
  match selectedProduct with
  | none => { transaction := none, productUpdate := none }
  | some prod =>
      let price := priceOverride.getD prod.defaultPrice
      let qty := catalogQty
      if qty ≤ 0 then { transaction := none, productUpdate := none }
      else
        let isHistorical := decide (entryDate < todayStr)
        { transaction := some ⟨price * qty, prod.id, price, qty⟩,
          productUpdate :=
            if ¬isHistorical ∧ hasOnUpdateProduct ∧ price ≠ prod.defaultPrice then
              some { prod with defaultPrice := price }
            else none }

/-- C9: a back-dated catalog purchase (`entryDate < todayStr`) never updates
the product's reference price; an update is issued only when the entry date
is today or later and the purchase price differs from the current reference,
and when issued it sets `defaultPrice` to the purchase price. -/
theorem handleCatalogAdd_historical (p : Product) (po : Option ℚ) (qty : ℚ)
    (d today : ℕ) (cb : Bool) (hq : 0 < qty) :
    (d < today → (handleCatalogAdd (some p) po qty d today cb).productUpdate = none)
    ∧ ((handleCatalogAdd (some p) po qty d today cb).productUpdate ≠ none →
        today ≤ d ∧ po.getD p.defaultPrice ≠ p.defaultPrice
          ∧ (handleCatalogAdd (some p) po qty d today cb).productUpdate
              = some { p with defaultPrice := po.getD p.defaultPrice })
    ∧ (today ≤ d → cb = true → po.getD p.defaultPrice ≠ p.defaultPrice →
        (handleCatalogAdd (some p) po qty d today cb).productUpdate
          = some { p with defaultPrice := po.getD p.defaultPrice }) := by
  have hqty : ¬(qty ≤ 0) := by linarith
  refine ⟨?_, ?_, ?_⟩
  · intro hd
    rw [handleCatalogAdd]
    simp only [hqty, if_false]
    rw [if_neg]
    intro hcon
    exact hcon.1 (decide_eq_true hd)
  · intro hne
    rw [handleCatalogAdd] at hne ⊢
    simp only [hqty, if_false] at hne ⊢
    by_cases hcond : ¬(decide (d < today)) = true ∧ cb = true
        ∧ po.getD p.defaultPrice ≠ p.defaultPrice
    · refine ⟨?_, hcond.2.2, ?_⟩
      · have := hcond.1
        simp only [decide_eq_true_eq] at this
        omega
      · rw [if_pos hcond]
    · exfalso
      exact hne (by rw [if_neg hcond])
  · intro hd hcb hne
    rw [handleCatalogAdd]
    simp only [hqty, if_false]
    rw [if_pos]
    exact ⟨by simp only [decide_eq_true_eq]; omega, hcb, hne⟩

/-- Witness for `handleCatalogAdd_historical`: a purchase dated 2026-01-01
entered while today is 2026-02-15, with an override price differing from the
reference, leaves the product untouched. -/
theorem handleCatalogAdd_historical_witness :
    (handleCatalogAdd (some ⟨"1", "Leche", 55, "uncategorized"⟩) (some 70) 2
        20260101 20260215 true).productUpdate = none :=
  (handleCatalogAdd_historical ⟨"1", "Leche", 55, "uncategorized"⟩ (some 70) 2
    20260101 20260215 true (by norm_num)).1 (by norm_num)

/- ### Catalog analysis report (analysisReport memo, ProductManager.tsx) -/

/-- One resolved price-history point (`{date, price, realPrice}` built by
`getProductHistory`).  The timestamp-ascending sort happens inside
`getProductHistory`, which the analysis memo consumes as a collaborator and
is passed in here as a function from product to history. -/
structure HistPoint where
  date : String
  price : ℚ
  realPrice : ℚ
deriving DecidableEq, Inhabited

/-- Per-product row of the analysis report (the object built inside
`products.map` in the analysis memo). -/
structure AnalysisItem where
  product : Product
  historyCount : ℕ
  firstDate : String
  lastDate : String
  firstRealPrice : ℚ
  lastRealPrice : ℚ
  lastNominalPrice : ℚ
  variation : ℚ
deriving DecidableEq

/-- The `products.map` body: fewer than 2 history points yields JS `null`
(`none`); otherwise the row with
`variation = (last.realPrice - first.realPrice) / first.realPrice * 100`
where `first = history[0]` and `last = history[history.length - 1]`. -/
def analysisItem (getHistory : Product → List HistPoint) (p : Product) : Option AnalysisItem :=
  let history := getHistory p
  if history.length < 2 then none
  else
    let fst := history.headD default
    let lst := history.getLastD default
    some ⟨p, history.length, fst.date, lst.date, fst.realPrice, lst.realPrice, lst.price,
      (lst.realPrice - fst.realPrice) / fst.realPrice * 100⟩

/-- Embeds the `analysisReport` memo: `null` rows filtered out, descending
sort by variation, the `> 1` / `< -1` / `[-1, 1]` classification filters,
with drops re-sorted ascending (most negative first).  JS `Array.sort` is
modelled by `mergeSort`. -/
def analysisReport (viewMode : String) (getHistory : Product → List HistPoint)
    (products : List Product) :
    List AnalysisItem × List AnalysisItem × List AnalysisItem :=
  if viewMode ≠ "analysis" then ([], [], [])
  else
    let items := products.filterMap (analysisItem getHistory)
    let sorted := items.mergeSort (fun a b => decide (b.variation ≤ a.variation))
    let increases := sorted.filter (fun i => decide (1 < i.variation))
    let drops := (sorted.filter (fun i => decide (i.variation < -1))).mergeSort
      (fun a b => decide (a.variation ≤ b.variation))
    let stbl := sorted.filter (fun i => decide (-1 ≤ i.variation) && decide (i.variation ≤ 1))
    (increases, drops, stbl)

lemma analysisItem_mem (gh : Product → List HistPoint) (ps : List Product)
    (it : AnalysisItem) (h : it ∈ ps.filterMap (analysisItem gh)) :
    2 ≤ (gh it.product).length
    ∧ it.variation = (((gh it.product).getLastD default).realPrice
        - ((gh it.product).headD default).realPrice)
        / ((gh it.product).headD default).realPrice * 100 := by
  rcases List.mem_filterMap.mp h with ⟨p, _, hp⟩
  rw [analysisItem] at hp
  by_cases hlen : (gh p).length < 2
  · simp [hlen] at hp
  · simp only [hlen, if_false, Option.some.injEq] at hp
    have hprod : it.product = p := by rw [← hp]
    have hvar : it.variation = (((gh p).getLastD default).realPrice
        - ((gh p).headD default).realPrice) / ((gh p).headD default).realPrice * 100 := by
      rw [← hp]
    rw [hprod, hvar]
    exact ⟨by omega, rfl⟩

/-- C6: in the analysis view every product whose resolved history has ≥ 2
points gets `variation = (lastReal − firstReal)/firstReal · 100`; a row is in
`increases` iff its variation exceeds 1, in `drops` iff below −1, in `stable`
iff within `[-1, 1]`; increases are sorted descending and drops ascending by
variation; rows always come from products with ≥ 2 history points, so
products with 0 or 1 points appear in none of the three lists. -/
theorem analysisReport_spec (gh : Product → List HistPoint) (ps : List Product) :
    (∀ it, it ∈ (analysisReport "analysis" gh ps).1 ↔
        it ∈ ps.filterMap (analysisItem gh) ∧ 1 < it.variation)
    ∧ (∀ it, it ∈ (analysisReport "analysis" gh ps).2.1 ↔
        it ∈ ps.filterMap (analysisItem gh) ∧ it.variation < -1)
    ∧ (∀ it, it ∈ (analysisReport "analysis" gh ps).2.2 ↔
        it ∈ ps.filterMap (analysisItem gh) ∧ -1 ≤ it.variation ∧ it.variation ≤ 1)
    ∧ (analysisReport "analysis" gh ps).1.Pairwise (fun a b => b.variation ≤ a.variation)
    ∧ (analysisReport "analysis" gh ps).2.1.Pairwise (fun a b => a.variation ≤ b.variation)
    ∧ (∀ it, it ∈ ps.filterMap (analysisItem gh) →
        2 ≤ (gh it.product).length
        ∧ it.variation = (((gh it.product).getLastD default).realPrice
            - ((gh it.product).headD default).realPrice)
            / ((gh it.product).headD default).realPrice * 100) := by
  have hview : ¬("analysis" ≠ "analysis") := by simp
  have hrep : analysisReport "analysis" gh ps =
      ((ps.filterMap (analysisItem gh)).mergeSort
          (fun a b => decide (b.variation ≤ a.variation))
        |>.filter (fun i => decide (1 < i.variation)),
       ((ps.filterMap (analysisItem gh)).mergeSort
          (fun a b => decide (b.variation ≤ a.variation))
        |>.filter (fun i => decide (i.variation < -1))
        |>.mergeSort (fun a b => decide (a.variation ≤ b.variation)),
       (ps.filterMap (analysisItem gh)).mergeSort
          (fun a b => decide (b.variation ≤ a.variation))
        |>.filter (fun i => decide (-1 ≤ i.variation) && decide (i.variation ≤ 1)))) := by
    rw [analysisReport, if_neg hview]
  have hperm : ((ps.filterMap (analysisItem gh)).mergeSort
      (fun a b => decide (b.variation ≤ a.variation))).Perm (ps.filterMap (analysisItem gh)) :=
    List.mergeSort_perm _ _
  have hsorted : ((ps.filterMap (analysisItem gh)).mergeSort
      (fun a b => decide (b.variation ≤ a.variation))).Pairwise
        (fun a b => b.variation ≤ a.variation) := by
    have h := @List.sorted_mergeSort AnalysisItem
      (fun a b => decide (b.variation ≤ a.variation))
      (fun a b c h1 h2 => by
        simp only [decide_eq_true_eq] at h1 h2 ⊢
        exact le_trans h2 h1)
      (fun a b => by
        rcases le_total b.variation a.variation with h | h <;> simp [h])
      (ps.filterMap (analysisItem gh))
    exact h.imp (fun h => by simpa using h)
  refine ⟨?_, ?_, ?_, ?_, ?_, analysisItem_mem gh ps⟩
  · intro it
    rw [hrep]
    simp only [List.mem_filter, decide_eq_true_eq, hperm.mem_iff]
  · intro it
    rw [hrep]
    have hperm2 : (((ps.filterMap (analysisItem gh)).mergeSort
        (fun a b => decide (b.variation ≤ a.variation))
        |>.filter (fun i => decide (i.variation < -1))).mergeSort
          (fun a b => decide (a.variation ≤ b.variation))).Perm
        ((ps.filterMap (analysisItem gh)).mergeSort
          (fun a b => decide (b.variation ≤ a.variation))
          |>.filter (fun i => decide (i.variation < -1))) := List.mergeSort_perm _ _
    rw [hperm2.mem_iff]
    simp only [List.mem_filter, decide_eq_true_eq, hperm.mem_iff]
  · intro it
    rw [hrep]
    simp only [List.mem_filter, Bool.and_eq_true, decide_eq_true_eq, hperm.mem_iff, and_assoc]
  · rw [hrep]
    exact hsorted.filter _
  · rw [hrep]
    have h := @List.sorted_mergeSort AnalysisItem
      (fun a b => decide (a.variation ≤ b.variation))
      (fun a b c h1 h2 => by
        simp only [decide_eq_true_eq] at h1 h2 ⊢
        exact le_trans h1 h2)
      (fun a b => by
        rcases le_total a.variation b.variation with h | h <;> simp [h])
      ((ps.filterMap (analysisItem gh)).mergeSort
        (fun a b => decide (b.variation ≤ a.variation))
        |>.filter (fun i => decide (i.variation < -1)))
    exact h.imp (fun h => by simpa using h)

/-- Example product and two-point history: first real price 100, last real
price 110, variation 10% (the spec's Example 3). -/
def productCafe : Product := ⟨"p1", "Cafe", 100, "uncategorized"⟩

/-- History collaborator returning the two-point series for every product. -/
def historyTwoPoints : Product → List HistPoint :=
  fun _ => [⟨"2026-01-01", 100, 100⟩, ⟨"2026-03-01", 110, 110⟩]

/-- Witness for `analysisReport_spec`: the 10%-variation row for `productCafe`
is classified among the increases. -/
theorem analysisReport_spec_witness :
    (⟨productCafe, 2, "2026-01-01", "2026-03-01", 100, 110, 110, 10⟩ : AnalysisItem)
      ∈ (analysisReport "analysis" historyTwoPoints [productCafe]).1 :=
  ((analysisReport_spec historyTwoPoints [productCafe]).1 _).mpr
    (by
      refine ⟨List.mem_filterMap.mpr ⟨productCafe, by simp, ?_⟩, by norm_num⟩
      norm_num [analysisItem, historyTwoPoints])

end Gestor
